import Mathlib

/-!
# Verification of `monitor_subscription_diagnostic_setting_resource.go`
  and the vendored `securityinsight/watchlists.go` client

Shallow embedding of the Go source of the `azurerm_monitor_subscription_diagnostic_setting`
Terraform resource and of the generated `WatchlistsClient`.  Pointers become `Option`,
fallible calls become explicit outcome values, and the remote service is an explicit
environment of pre-decided responses.  A Go nil-pointer dereference is modelled as a
distinguished `panicNilDeref` outcome, separate from returned errors.
-/

namespace AzureRM

/-! ## Basic data model (from `subscriptiondiagnosticsettings` SDK structs) -/

/-- One element of the `log` set as the schema delivers it to the Go code:
`category` and `category_group` are strings (zero value `""`), `enabled` a bool. -/
structure LogInput where
  category : String
  category_group : String
  enabled : Bool
deriving DecidableEq

/-- `subscriptiondiagnosticsettings.SubscriptionLogSettings`:
`Category` and `CategoryGroup` are `*string` in Go, hence `Option String` here. -/
structure SubscriptionLogSettings where
  Category : Option String
  CategoryGroup : Option String
  Enabled : Bool
deriving DecidableEq

/-- `subscriptiondiagnosticsettings.SubscriptionDiagnosticSettings` (the `Properties`
payload), restricted to the fields the resource file touches. -/
structure SettingsProps where
  EventHubName : Option String
  EventHubAuthorizationRuleId : Option String
  WorkspaceId : Option String
  StorageAccountId : Option String
  Logs : Option (List SubscriptionLogSettings)
deriving DecidableEq

/-- `subscriptiondiagnosticsettings.SubscriptionDiagnosticSettingsResource`:
`Id` and `Properties` are pointers in Go. -/
structure SettingsModel where
  Id : Option String
  Properties : Option SettingsProps
deriving DecidableEq

/-- The observable part of one `client.Get` call: whether the call returned a Go
error (`err != nil`), whether `response.WasNotFound(resp.HttpResponse)` holds for
its HTTP response, and the decoded `Model` pointer. -/
structure GetResponse where
  err : Bool
  wasNotFound : Bool
  Model : Option SettingsModel
deriving DecidableEq

/-- `subscriptiondiagnosticsettings.DiagnosticSettingId`. -/
structure DiagnosticSettingId where
  SubscriptionId : String
  Name : String
deriving DecidableEq

/-! ## `ParseMonitorSubscriptionDiagnosticId` (source lines 374-383)

Go's `strings.Split(s, "|")` splits around every occurrence of `"|"`; on the
character list of the string this is the structural recursion below. -/

/-- `strings.Split(s, "|")` on the character list: splitting around every `'|'`.
`[]` maps to `[[]]` exactly as `strings.Split("", "|") = [""]`. -/
def splitPipeChars : List Char → List (List Char)
  | [] => [[]]
  | c :: rest =>
    if c = '|' then [] :: splitPipeChars rest
    else
      match splitPipeChars rest with
      | [] => [[c]]
      | s :: ss => (c :: s) :: ss

/-- Embedding of Go `strings.Split(s, "|")`. -/
def stringsSplitPipe (s : String) : List String :=
  (splitPipeChars s.toList).map List.asString

/-- Source lines 374-383: split on `"|"`, demand exactly two segments, no further
validation of either segment. -/
def ParseMonitorSubscriptionDiagnosticId (monitorId : String) :
    Except String DiagnosticSettingId :=
  let v := stringsSplitPipe monitorId
  if h : v.length = 2 then
    .ok { SubscriptionId := v.get ⟨0, by omega⟩, Name := v.get ⟨1, by omega⟩ }
  else
    .error "Expected the Monitor Subscription Diagnostics ID to be in the format subscriptionId|name but got a different number of segments"

/-! ## expand / flatten (source lines 324-372) -/

/-- Source lines 324-347: the loop body of `expandSubscriptionMonitorDiagnosticsSettingsLogs`
for one raw entry: `Category` is set when `category` is non-empty, otherwise
`CategoryGroup` is set (even to the empty string). -/
def expandOneLog (v : LogInput) : SubscriptionLogSettings :=
  if v.category ≠ "" then
    { Category := some v.category, CategoryGroup := none, Enabled := v.enabled }
  else
    { Category := none, CategoryGroup := some v.category_group, Enabled := v.enabled }

/-- Source lines 324-347: `results := []; for _, raw := range input { results = append(results, ...) }`. -/
def expandSubscriptionMonitorDiagnosticsSettingsLogs (input : List LogInput) :
    List SubscriptionLogSettings :=
  input.map expandOneLog

/-- One element of the flattened `log` list: the keys `category` / `category_group`
are present exactly when the corresponding pointer was non-nil. -/
structure FlatLogEntry where
  category : Option String
  category_group : Option String
  enabled : Bool
deriving DecidableEq

/-- Source lines 349-372: `flattenMonitorSubscriptionDiagnosticLogs`; a nil slice
pointer flattens to the empty list. -/
def flattenMonitorSubscriptionDiagnosticLogs
    (input : Option (List SubscriptionLogSettings)) : List FlatLogEntry :=
  match input with
  | none => []
  | some l =>
    l.map fun v => { category := v.Category, category_group := v.CategoryGroup, enabled := v.Enabled }

/-! ## Outcomes and state writes -/

/-- Values written into Terraform state by `d.Set`. -/
inductive AttrValue where
  | str (s : String)
  | optStr (s : Option String)
  | logs (l : List FlatLogEntry)
deriving DecidableEq

/-- One mutation of the Terraform state: `d.SetId` or `d.Set key value`. -/
inductive StateOp where
  | setId (id : String)
  | set (key : String) (value : AttrValue)
deriving DecidableEq

/-- The distinguishable error returns of the CRUD functions. -/
inductive CrudErr where
  | existenceCheckFailed
  | importAsExists
  | noLogBlock
  | noLogEnabled
  | noDestination
  | createFailed
  | readBackGetFailed
  | cannotReadId
  | parseIdFailed
  | retrieveFailed
  | authRuleParseFailed
  | workspaceParseFailed
  | storageParseFailed
  | deleteFailed
  | waitFailed
deriving DecidableEq

/-- How a CRUD function terminates: a nil return, an error return, or a Go runtime
panic from dereferencing a nil pointer. -/
inductive Outcome where
  | ok
  | err (e : CrudErr)
  | panicNilDeref
deriving DecidableEq

/-! ## `resourceMonitorSubscriptionDiagnosticSettingRead` (source lines 205-273) -/

/-- Environment of the Read function: the `client.Get` response and the three
external ID-(re)parsing helpers from other packages, abstracted as oracles that
either fail (Go error) or return the normalised `parsedId.ID()` string. -/
structure ReadEnv where
  get : GetResponse
  parseAuthRuleInsensitively : String → Option String
  parseWorkspaceID : String → Option String
  parseStorageAccountID : String → Option String

/-- Result of the Read function: the state writes it performed, in order, and how
it returned. -/
structure ReadResult where
  ops : List StateOp
  outcome : Outcome

/-- Source lines 230-270: the body under `if model := resp.Model; model != nil`
and `if props := model.Properties; props != nil`, given the writes `ops0`
already performed (name / target_subscription_id). -/
def readPropsBlock (env : ReadEnv) (props : SettingsProps) (ops0 : List StateOp) : ReadResult :=
  let ops1 := ops0 ++ [StateOp.set "eventhub_name" (.optStr props.EventHubName)]
  let authStep : Except Unit String :=
    match props.EventHubAuthorizationRuleId with
    | some s =>
      if s ≠ "" then
        match env.parseAuthRuleInsensitively s with
        | none => .error ()
        | some parsed => .ok parsed
      else .ok ""
    | none => .ok ""
  match authStep with
  | .error _ => { ops := ops1, outcome := .err .authRuleParseFailed }
  | .ok eventhubAuthorizationRuleId =>
    let ops2 := ops1 ++ [StateOp.set "eventhub_authorization_rule_id" (.str eventhubAuthorizationRuleId)]
    let wsStep : Except Unit String :=
      match props.WorkspaceId with
      | some s =>
        if s ≠ "" then
          match env.parseWorkspaceID s with
          | none => .error ()
          | some parsed => .ok parsed
        else .ok ""
      | none => .ok ""
    match wsStep with
    | .error _ => { ops := ops2, outcome := .err .workspaceParseFailed }
    | .ok workspaceId =>
      let ops3 := ops2 ++ [StateOp.set "log_analytics_workspace_id" (.str workspaceId)]
      let saStep : Except Unit (Option String) :=
        match props.StorageAccountId with
        | some s =>
          if s ≠ "" then
            match env.parseStorageAccountID s with
            | none => .error ()
            | some parsed => .ok (some parsed)
          else .ok none
        | none => .ok none
      match saStep with
      | .error _ => { ops := ops3, outcome := .err .storageParseFailed }
      | .ok storageSet =>
        -- `d.Set("storage_account_id", ...)` happens only inside the non-empty branch
        let ops4 :=
          match storageSet with
          | some storageAccountId => ops3 ++ [StateOp.set "storage_account_id" (.str storageAccountId)]
          | none => ops3
        let ops5 := ops4 ++ [StateOp.set "log" (.logs (flattenMonitorSubscriptionDiagnosticLogs props.Logs))]
        { ops := ops5, outcome := .ok }

/-- Source lines 205-273: parse the stored ID, `client.Get`; a not-found failure
clears the ID and returns nil, any other failure returns an error before any
write; on success mirror the model into state. -/
def resourceMonitorSubscriptionDiagnosticSettingRead (env : ReadEnv) (idStr : String) : ReadResult :=
  match ParseMonitorSubscriptionDiagnosticId idStr with
  | .error _ => { ops := [], outcome := .err .parseIdFailed }
  | .ok id =>
    let resp := env.get
    if resp.err then
      if resp.wasNotFound then { ops := [StateOp.setId ""], outcome := .ok }
      else { ops := [], outcome := .err .retrieveFailed }
    else
      let ops0 := [StateOp.set "name" (.str id.Name),
                   StateOp.set "target_subscription_id" (.str id.SubscriptionId)]
      match resp.Model with
      | none => { ops := ops0, outcome := .ok }
      | some model =>
        match model.Properties with
        | none => { ops := ops0, outcome := .ok }
        | some props => readPropsBlock env props ops0

/-! ## `resourceMonitorSubscriptionDiagnosticSettingCreateUpdate` (source lines 114-203) -/

/-- The schema values the create/update function reads out of `d`. -/
structure CreateUpdateInput where
  name : String
  subscriptionID : String
  isNewResource : Bool
  logsRaw : List LogInput
  eventHubAuthorizationRuleId : String
  eventHubName : String
  workspaceId : String
  storageAccountId : String

/-- Environment of create/update: the existence-check `Get`, whether the remote
`CreateOrUpdate` fails, the follow-up `Get`, and everything the tail call to
Read needs. -/
structure CreateUpdateEnv where
  getExisting : GetResponse
  createOrUpdateErr : Bool
  getAfterCreate : GetResponse
  readEnv : ReadEnv

/-- Result of create/update: state writes, whether the remote `CreateOrUpdate`
was invoked, and how the function returned. -/
structure CreateUpdateResult where
  ops : List StateOp
  calledCreateOrUpdate : Bool
  outcome : Outcome

/-- Source line 132: `existing.Model != nil && existing.Model.Id != nil && *existing.Model.Id != ""`
(properly short-circuited, hence never a nil dereference). -/
def existingModelHasId : Option SettingsModel → Bool
  | none => false
  | some m =>
    match m.Id with
    | none => false
    | some id => id ≠ ""

/-- Source lines 137-202: the part of create/update after the new-resource
existence check: log expansion and validation, destination validation,
remote `CreateOrUpdate`, follow-up `Get` with the line-196 guard
`read.Model == nil && read.Model.Id == nil` (which dereferences the nil
`Model` pointer whenever `Model` is nil), `d.SetId`, and the tail call to Read. -/
def createUpdateAfterExistence (env : CreateUpdateEnv) (input : CreateUpdateInput) :
    CreateUpdateResult :=
  let logs := expandSubscriptionMonitorDiagnosticsSettingsLogs input.logsRaw
  if logs.length = 0 then
    { ops := [], calledCreateOrUpdate := false, outcome := .err .noLogBlock }
  else if ¬ logs.any (·.Enabled) then
    { ops := [], calledCreateOrUpdate := false, outcome := .err .noLogEnabled }
  else
    let valid := input.eventHubAuthorizationRuleId ≠ ""
    let valid := valid ∨ input.workspaceId ≠ ""
    let valid := valid ∨ input.storageAccountId ≠ ""
    if ¬ valid then
      { ops := [], calledCreateOrUpdate := false, outcome := .err .noDestination }
    else if env.createOrUpdateErr then
      { ops := [], calledCreateOrUpdate := true, outcome := .err .createFailed }
    else
      let read := env.getAfterCreate
      if read.err then
        { ops := [], calledCreateOrUpdate := true, outcome := .err .readBackGetFailed }
      else
        -- line 196: `read.Model == nil && read.Model.Id == nil`; when `Model` is nil
        -- the left conjunct is true and evaluating `read.Model.Id` panics, and when
        -- `Model` is non-nil the conjunction short-circuits to false, so the
        -- `cannotReadId` error is unreachable
        match read.Model with
        | none =>
          { ops := [], calledCreateOrUpdate := true, outcome := .panicNilDeref }
        | some _ =>
          let idStr := input.subscriptionID ++ "|" ++ input.name
          let r := resourceMonitorSubscriptionDiagnosticSettingRead env.readEnv idStr
          { ops := StateOp.setId idStr :: r.ops, calledCreateOrUpdate := true,
            outcome := r.outcome }

/-- Source lines 114-203: `resourceMonitorSubscriptionDiagnosticSettingCreateUpdate`. -/
def resourceMonitorSubscriptionDiagnosticSettingCreateUpdate
    (env : CreateUpdateEnv) (input : CreateUpdateInput) : CreateUpdateResult :=
  if input.isNewResource then
    if env.getExisting.err ∧ ¬ env.getExisting.wasNotFound then
      { ops := [], calledCreateOrUpdate := false, outcome := .err .existenceCheckFailed }
    else if existingModelHasId env.getExisting.Model then
      { ops := [], calledCreateOrUpdate := false, outcome := .err .importAsExists }
    else createUpdateAfterExistence env input
  else createUpdateAfterExistence env input

/-! ## Delete and the polling refresh function (source lines 275-322) -/

/-- The three shapes of the triple returned by the `StateRefreshFunc`:
`("NotFound", "NotFound", nil)`, `(res, "Exists", nil)`, or `(nil, "", err)`. -/
inductive RefreshOutcome where
  | stateNotFound
  | stateExists (res : GetResponse)
  | refreshError
deriving DecidableEq

/-- Source lines 310-322: `monitorSubscriptionDiagnosticSettingDeletedRefreshFunc`
evaluated on one `client.Get` response. -/
def monitorSubscriptionDiagnosticSettingDeletedRefreshFunc (res : GetResponse) :
    RefreshOutcome :=
  if res.err then
    if res.wasNotFound then .stateNotFound
    else .refreshError
  else .stateExists res

/-- The fields of `pluginsdk.StateChangeConf` that the delete function fills in
(times in seconds). -/
structure StateChangeConf where
  Pending : List String
  Target : List String
  MinTimeoutSeconds : Nat
  ContinuousTargetOccurence : Nat
  TimeoutSeconds : Nat
deriving DecidableEq

/-- Source lines 294-301: the configuration delete passes to the state machine. -/
def deleteStateConf (timeoutSeconds : Nat) : StateChangeConf :=
  { Pending := ["Exists"], Target := ["NotFound"], MinTimeoutSeconds := 15,
    ContinuousTargetOccurence := 5, TimeoutSeconds := timeoutSeconds }

/-- How the wait loop ends. -/
inductive WaitResult where
  | success
  | timedOut
  | refreshFailed
deriving DecidableEq

/-- Loop kernel of the modelled wait: `i` is the index of the next poll, `occ` the
current count of consecutive target observations, `fuel` the number of polls
that still fit before the timeout elapses. -/
def waitGo (refresh : Nat → RefreshOutcome) (target : Nat) :
    Nat → Nat → Nat → WaitResult
  | _, _, 0 => .timedOut
  | i, occ, fuel + 1 =>
    match refresh i with
    | .stateNotFound =>
      if target ≤ occ + 1 then .success
      else waitGo refresh target (i + 1) (occ + 1) fuel
    | .stateExists _ => waitGo refresh target (i + 1) 0 fuel
    | .refreshError => .refreshFailed

/-- Modelled from the spec: `StateChangeConf.WaitForStateContext` lives in the
provider's plugin-SDK wrapper (`internal/tf/pluginsdk`), which is not part of
this fragment.  The spec describes the delete wait as "a simple fixed-interval
poll-until-not-found loop": the refresh function is polled at the fixed minimum
interval until the target state is observed `ContinuousTargetOccurence` times
consecutively, and the wait fails if the timeout elapses first (each poll
consumes one minimum interval of the timeout budget). -/
def waitForStateContext (conf : StateChangeConf) (refresh : Nat → RefreshOutcome) :
    WaitResult :=
  waitGo refresh conf.ContinuousTargetOccurence 0 0
    (conf.TimeoutSeconds / conf.MinTimeoutSeconds)

/-- Environment of the delete function: the `client.Delete` response, the
successive `client.Get` responses seen by the polls, and the delete timeout. -/
structure DeleteEnv where
  deleteErr : Bool
  deleteWasNotFound : Bool
  polls : Nat → GetResponse
  timeoutSeconds : Nat

/-- Source lines 275-308: `resourceMonitorSubscriptionDiagnosticSettingDelete`:
parse the ID, call `client.Delete` (tolerating not-found), then wait for the
polls to report `NotFound` stably. -/
def resourceMonitorSubscriptionDiagnosticSettingDelete (env : DeleteEnv) (idStr : String) :
    Outcome :=
  match ParseMonitorSubscriptionDiagnosticId idStr with
  | .error _ => .err .parseIdFailed
  | .ok _ =>
    if env.deleteErr ∧ ¬ env.deleteWasNotFound then .err .deleteFailed
    else
      let refresh := fun i => monitorSubscriptionDiagnosticSettingDeletedRefreshFunc (env.polls i)
      match waitForStateContext (deleteStateConf env.timeoutSeconds) refresh with
      | .success => .ok
      | _ => .err .waitFailed

end AzureRM

namespace SecurityInsight

/-! ## Vendored `securityinsight/watchlists.go` (generated client)

Each operation runs `validation.Validate` over its constraint list before any
request is prepared or sent; the autorest prepare/send/respond pipeline is
external and abstracted as an environment of pre-decided step outcomes. -/

/-- `securityinsight.WatchlistProperties`, restricted to the three pointer fields
the generated validation inspects. -/
structure WatchlistProperties where
  DisplayName : Option String
  Provider : Option String
  ItemsSearchKey : Option String
deriving DecidableEq

/-- `securityinsight.Watchlist`: `WatchlistProperties` is an embedded pointer. -/
structure Watchlist where
  WatchlistProperties : Option WatchlistProperties
deriving DecidableEq

/-- The identifying fields of `WatchlistsClient` (from `BaseClient`). -/
structure WatchlistsClient where
  SubscriptionID : String
  BaseURI : String
deriving DecidableEq

/-- Outcomes of the autorest pipeline steps an operation runs after validation. -/
structure AutorestEnv where
  prepareOk : Bool
  sendOk : Bool
  respondOk : Bool
deriving DecidableEq

/-- How far an operation got and how it ended. -/
inductive OpOutcome where
  | validationFailed
  | prepareFailed
  | sendFailed
  | respondFailed
  | succeeded
deriving DecidableEq

/-- Result of an operation: whether an HTTP request was actually sent, and the
step at which the operation ended. -/
structure OpResult where
  requestSent : Bool
  outcome : OpOutcome
deriving DecidableEq

/-- The constraint list shared by all four operations: `client.SubscriptionID`
MinLength 1; `resourceGroupName` MaxLength 90 and MinLength 1; `workspaceName`
MaxLength 90 and MinLength 1. -/
def validateCommon (client : WatchlistsClient) (resourceGroupName workspaceName : String) :
    Bool :=
  1 ≤ client.SubscriptionID.length &&
  (resourceGroupName.length ≤ 90 && 1 ≤ resourceGroupName.length) &&
  (workspaceName.length ≤ 90 && 1 ≤ workspaceName.length)

/-- The additional CreateOrUpdate constraint (source lines 64-69): if
`watchlist.WatchlistProperties` is non-nil, its `DisplayName`, `Provider` and
`ItemsSearchKey` must all be non-nil. -/
def validateWatchlistBody (watchlist : Watchlist) : Bool :=
  match watchlist.WatchlistProperties with
  | none => true
  | some p => p.DisplayName.isSome && p.Provider.isSome && p.ItemsSearchKey.isSome

/-- The prepare / send / respond tail shared by the operations once validation
has passed: preparing sends nothing, the send step is the first (and only)
point at which a request goes out. -/
def runPipeline (env : AutorestEnv) : OpResult :=
  if ¬ env.prepareOk then { requestSent := false, outcome := .prepareFailed }
  else if ¬ env.sendOk then { requestSent := true, outcome := .sendFailed }
  else if ¬ env.respondOk then { requestSent := true, outcome := .respondFailed }
  else { requestSent := true, outcome := .succeeded }

/-- Source lines 44-93: `WatchlistsClient.CreateOrUpdate`. -/
def WatchlistsClient.CreateOrUpdate (client : WatchlistsClient) (env : AutorestEnv)
    (resourceGroupName workspaceName watchlistAlias : String) (watchlist : Watchlist) :
    OpResult :=
  let _ := watchlistAlias
  if ¬ (validateCommon client resourceGroupName workspaceName && validateWatchlistBody watchlist) then
    { requestSent := false, outcome := .validationFailed }
  else runPipeline env

/-- Source lines 142-185: `WatchlistsClient.Delete`. -/
def WatchlistsClient.Delete (client : WatchlistsClient) (env : AutorestEnv)
    (resourceGroupName workspaceName watchlistAlias : String) : OpResult :=
  let _ := watchlistAlias
  if ¬ validateCommon client resourceGroupName workspaceName then
    { requestSent := false, outcome := .validationFailed }
  else runPipeline env

/-- Source lines 231-274: `WatchlistsClient.Get`. -/
def WatchlistsClient.Get (client : WatchlistsClient) (env : AutorestEnv)
    (resourceGroupName workspaceName watchlistAlias : String) : OpResult :=
  let _ := watchlistAlias
  if ¬ validateCommon client resourceGroupName workspaceName then
    { requestSent := false, outcome := .validationFailed }
  else runPipeline env

/-- Source lines 323-371: `WatchlistsClient.List` (the `skipToken` parameter only
affects the query string). -/
def WatchlistsClient.List (client : WatchlistsClient) (env : AutorestEnv)
    (resourceGroupName workspaceName skipToken : String) : OpResult :=
  let _ := skipToken
  if ¬ validateCommon client resourceGroupName workspaceName then
    { requestSent := false, outcome := .validationFailed }
  else runPipeline env

end SecurityInsight

namespace AzureRM

/-! ## Helper lemmas about the pipe split -/

theorem splitPipeChars_ne_nil (l : List Char) : splitPipeChars l ≠ [] := by
  induction l with
  | nil => simp [splitPipeChars]
  | cons c rest ih =>
    simp only [splitPipeChars]
    split
    · simp
    · cases h : splitPipeChars rest with
      | nil => simp
      | cons s ss => simp

theorem splitPipeChars_no_pipe (l : List Char) (h : '|' ∉ l) : splitPipeChars l = [l] := by
  induction l with
  | nil => rfl
  | cons c rest ih =>
    simp only [List.mem_cons, not_or] at h
    simp only [splitPipeChars, if_neg (Ne.symm h.1), ih h.2]

theorem splitPipeChars_append_pipe (a b : List Char) (ha : '|' ∉ a) :
    splitPipeChars (a ++ '|' :: b) = a :: splitPipeChars b := by
  induction a with
  | nil => simp [splitPipeChars]
  | cons c rest ih =>
    simp only [List.mem_cons, not_or] at ha
    have h2 := ih ha.2
    simp only [List.cons_append, splitPipeChars, if_neg (Ne.symm ha.1), List.append_eq, h2]

theorem length_splitPipeChars (l : List Char) :
    (splitPipeChars l).length = l.count '|' + 1 := by
  induction l with
  | nil => rfl
  | cons c rest ih =>
    simp only [splitPipeChars]
    split
    · rename_i hc
      subst hc
      simp [List.count_cons, ih]
    · rename_i hc
      cases h : splitPipeChars rest with
      | nil => exact absurd h (splitPipeChars_ne_nil rest)
      | cons s ss =>
        have hlen := ih
        rw [h] at hlen
        have hcount : (c :: rest).count '|' = rest.count '|' := by
          simp [List.count_cons, hc]
        simp only [List.length_cons] at hlen ⊢
        omega

theorem toList_string_append (a b : String) : (a ++ b).toList = a.toList ++ b.toList :=
  String.data_append a b

theorem parse_of_split_eq (s x y : String) (h : stringsSplitPipe s = [x, y]) :
    ParseMonitorSubscriptionDiagnosticId s = .ok ⟨x, y⟩ := by
  simp [ParseMonitorSubscriptionDiagnosticId, h]

/-- Splitting the concatenation `a ++ "|" ++ b` with pipe-free `a` and `b`. -/
theorem stringsSplitPipe_append (a b : String)
    (ha : '|' ∉ a.toList) (hb : '|' ∉ b.toList) :
    stringsSplitPipe (a ++ "|" ++ b) = [a, b] := by
  unfold stringsSplitPipe
  have h1 : (a ++ "|" ++ b).toList = a.toList ++ '|' :: b.toList := by
    rw [toList_string_append, toList_string_append, List.append_assoc]
    rfl
  rw [h1, splitPipeChars_append_pipe _ _ ha, splitPipeChars_no_pipe _ hb]
  simp only [List.map_cons, List.map_nil, String.asString_toList]

/-- The shared round-trip lemma: parsing `a ++ "|" ++ b` for pipe-free `a`, `b`. -/
theorem parse_append (a b : String) (ha : '|' ∉ a.toList) (hb : '|' ∉ b.toList) :
    ParseMonitorSubscriptionDiagnosticId (a ++ "|" ++ b) = .ok ⟨a, b⟩ :=
  parse_of_split_eq _ _ _ (stringsSplitPipe_append a b ha hb)

theorem length_stringsSplitPipe (s : String) :
    (stringsSplitPipe s).length = s.toList.count '|' + 1 := by
  unfold stringsSplitPipe
  rw [List.length_map, length_splitPipeChars]

theorem readPropsBlock_outcome_cases (env : ReadEnv) (props : SettingsProps)
    (ops0 : List StateOp) :
    (readPropsBlock env props ops0).outcome = .ok ∨
    (readPropsBlock env props ops0).outcome = .err .authRuleParseFailed ∨
    (readPropsBlock env props ops0).outcome = .err .workspaceParseFailed ∨
    (readPropsBlock env props ops0).outcome = .err .storageParseFailed := by
  unfold readPropsBlock
  repeat' split
  all_goals simp

theorem read_outcome_cases (env : ReadEnv) (idStr : String) :
    (resourceMonitorSubscriptionDiagnosticSettingRead env idStr).outcome = .ok ∨
    (resourceMonitorSubscriptionDiagnosticSettingRead env idStr).outcome = .err .parseIdFailed ∨
    (resourceMonitorSubscriptionDiagnosticSettingRead env idStr).outcome = .err .retrieveFailed ∨
    (resourceMonitorSubscriptionDiagnosticSettingRead env idStr).outcome = .err .authRuleParseFailed ∨
    (resourceMonitorSubscriptionDiagnosticSettingRead env idStr).outcome = .err .workspaceParseFailed ∨
    (resourceMonitorSubscriptionDiagnosticSettingRead env idStr).outcome = .err .storageParseFailed := by
  unfold resourceMonitorSubscriptionDiagnosticSettingRead
  cases hp : ParseMonitorSubscriptionDiagnosticId idStr with
  | error e => simp
  | ok id =>
    dsimp only
    by_cases he : env.get.err = true
    · by_cases hn : env.get.wasNotFound = true
      · simp [he, hn]
      · simp [he, hn]
    · cases hm : env.get.Model with
      | none => simp [he, hm]
      | some model =>
        cases hq : model.Properties with
        | none => simp [he, hm, hq]
        | some props =>
          rcases readPropsBlock_outcome_cases env props
              [StateOp.set "name" (AttrValue.str id.Name),
               StateOp.set "target_subscription_id" (AttrValue.str id.SubscriptionId)]
            with h | h | h | h <;> simp [he, hm, hq, h]

theorem parse_isOk_iff (s : String) :
    (ParseMonitorSubscriptionDiagnosticId s).isOk = true ↔ s.toList.count '|' = 1 := by
  unfold ParseMonitorSubscriptionDiagnosticId
  have hlen := length_stringsSplitPipe s
  constructor
  · intro h
    by_contra hc
    have h2 : (stringsSplitPipe s).length ≠ 2 := by omega
    simp only [dif_neg h2] at h
    simp [Except.isOk, Except.toBool] at h
  · intro h
    have h2 : (stringsSplitPipe s).length = 2 := by omega
    simp only [dif_pos h2]
    rfl

/-! ## Claim theorems: expand/flatten and ID parsing -/

/-- C7: flattening the expansion of any `log` list yields one entry per input
entry, in the same order, preserving `enabled`; the `category` value survives
when `category` is non-empty and otherwise the `category_group` value survives,
and no entry carries both keys after the round trip. -/
theorem flatten_expand_roundtrip (input : List LogInput) :
    flattenMonitorSubscriptionDiagnosticLogs
        (some (expandSubscriptionMonitorDiagnosticsSettingsLogs input)) =
      input.map (fun e =>
        if e.category ≠ "" then
          { category := some e.category, category_group := none, enabled := e.enabled }
        else
          { category := none, category_group := some e.category_group, enabled := e.enabled }) := by
  unfold flattenMonitorSubscriptionDiagnosticLogs expandSubscriptionMonitorDiagnosticsSettingsLogs
  dsimp only
  rw [List.map_map]
  refine List.map_congr_left fun e _ => ?_
  by_cases h : e.category = "" <;> simp [Function.comp, expandOneLog, h]

/-- C9: every element produced by `expandSubscriptionMonitorDiagnosticsSettingsLogs`
has exactly one of `Category` / `CategoryGroup` non-nil; a non-empty `category`
takes precedence (leaving `CategoryGroup` nil even when `category_group` is
non-empty), and an empty `category` yields `CategoryGroup` set (possibly to the
empty string) with `Category` nil. -/
theorem expand_exactly_one_category (input : List LogInput) :
    (∀ out ∈ expandSubscriptionMonitorDiagnosticsSettingsLogs input,
        (out.Category.isSome ∧ out.CategoryGroup = none) ∨
        (out.Category = none ∧ out.CategoryGroup.isSome))
  ∧ (∀ e ∈ input, e.category ≠ "" →
        (expandOneLog e).Category = some e.category ∧ (expandOneLog e).CategoryGroup = none)
  ∧ (∀ e ∈ input, e.category = "" →
        (expandOneLog e).Category = none ∧
        (expandOneLog e).CategoryGroup = some e.category_group) := by
  refine ⟨?_, ?_, ?_⟩
  · intro out hout
    simp only [expandSubscriptionMonitorDiagnosticsSettingsLogs, List.mem_map] at hout
    obtain ⟨e, _, rfl⟩ := hout
    unfold expandOneLog
    split <;> simp
  · intro e _ hc
    simp [expandOneLog, hc]
  · intro e _ hc
    simp [expandOneLog, hc]

/-- C9 witness: the invariant and the precedence evaluated on a concrete list in
which one entry has both `category` and `category_group` non-empty and one has
only `category_group`. -/
theorem expand_exactly_one_category_witness :
    (∀ out ∈ expandSubscriptionMonitorDiagnosticsSettingsLogs
        [⟨"Administrative", "allLogs", true⟩, ⟨"", "audit", false⟩],
        (out.Category.isSome ∧ out.CategoryGroup = none) ∨
        (out.Category = none ∧ out.CategoryGroup.isSome))
  ∧ (expandOneLog ⟨"Administrative", "allLogs", true⟩).Category = some "Administrative"
  ∧ (expandOneLog ⟨"Administrative", "allLogs", true⟩).CategoryGroup = none
  ∧ (expandOneLog ⟨"", "audit", false⟩).Category = none
  ∧ (expandOneLog ⟨"", "audit", false⟩).CategoryGroup = some "audit" := by
  have h := expand_exactly_one_category
      [⟨"Administrative", "allLogs", true⟩, ⟨"", "audit", false⟩]
  refine ⟨h.1, ?_, ?_, ?_, ?_⟩
  · exact (h.2.1 ⟨"Administrative", "allLogs", true⟩ (by simp) (by decide)).1
  · exact (h.2.1 ⟨"Administrative", "allLogs", true⟩ (by simp) (by decide)).2
  · exact (h.2.2 ⟨"", "audit", false⟩ (by simp) (by decide)).1
  · exact (h.2.2 ⟨"", "audit", false⟩ (by simp) (by decide)).2

/-- C6: `ParseMonitorSubscriptionDiagnosticId` succeeds exactly when the string
contains exactly one pipe character (equivalently, splitting on the pipe yields
exactly two segments), and on success returns the text before the pipe as
`SubscriptionId` and the text after it as `Name`, with no validation of either
segment (empty segments included). -/
theorem parse_id_split_spec (s : String) :
    ((ParseMonitorSubscriptionDiagnosticId s).isOk = true ↔ s.toList.count '|' = 1)
  ∧ (∀ a b : String, '|' ∉ a.toList → '|' ∉ b.toList → s = a ++ "|" ++ b →
      ParseMonitorSubscriptionDiagnosticId s = .ok { SubscriptionId := a, Name := b }) :=
  ⟨parse_isOk_iff s, fun a b ha hb hs => hs ▸ parse_append a b ha hb⟩

/-- C6 witness: the characterisation evaluated on `"|"`: exactly one pipe, two
empty segments, both accepted. -/
theorem parse_id_split_spec_witness :
    (ParseMonitorSubscriptionDiagnosticId "|").isOk = true
  ∧ ParseMonitorSubscriptionDiagnosticId "|" = .ok { SubscriptionId := "", Name := "" } := by
  have h := parse_id_split_spec "|"
  exact ⟨h.1.mpr (by decide), h.2 "" "" (by decide) (by decide) rfl⟩

/-! ## Claim theorems: the create/update flow -/

theorem createUpdate_cases (env : CreateUpdateEnv) (input : CreateUpdateInput) :
    resourceMonitorSubscriptionDiagnosticSettingCreateUpdate env input =
        { ops := [], calledCreateOrUpdate := false, outcome := .err .existenceCheckFailed } ∨
    resourceMonitorSubscriptionDiagnosticSettingCreateUpdate env input =
        { ops := [], calledCreateOrUpdate := false, outcome := .err .importAsExists } ∨
    resourceMonitorSubscriptionDiagnosticSettingCreateUpdate env input =
        createUpdateAfterExistence env input := by
  unfold resourceMonitorSubscriptionDiagnosticSettingCreateUpdate
  split
  · split
    · exact Or.inl rfl
    · split
      · exact Or.inr (Or.inl rfl)
      · exact Or.inr (Or.inr rfl)
  · exact Or.inr (Or.inr rfl)

theorem afterExistence_noLogBlock (env : CreateUpdateEnv) (input : CreateUpdateInput)
    (h : expandSubscriptionMonitorDiagnosticsSettingsLogs input.logsRaw = []) :
    createUpdateAfterExistence env input =
      { ops := [], calledCreateOrUpdate := false, outcome := .err .noLogBlock } := by
  unfold createUpdateAfterExistence
  dsimp only
  rw [if_pos (by simp [h])]

theorem afterExistence_noLogEnabled (env : CreateUpdateEnv) (input : CreateUpdateInput)
    (h1 : expandSubscriptionMonitorDiagnosticsSettingsLogs input.logsRaw ≠ [])
    (h2 : (expandSubscriptionMonitorDiagnosticsSettingsLogs input.logsRaw).any (·.Enabled) = false) :
    createUpdateAfterExistence env input =
      { ops := [], calledCreateOrUpdate := false, outcome := .err .noLogEnabled } := by
  unfold createUpdateAfterExistence
  dsimp only
  rw [if_neg (by simpa using h1), if_pos (by simp [h2])]

theorem afterExistence_outcome_ne (env : CreateUpdateEnv) (input : CreateUpdateInput)
    (hen : (expandSubscriptionMonitorDiagnosticsSettingsLogs input.logsRaw).any (·.Enabled) = true) :
    (createUpdateAfterExistence env input).outcome ≠ .err .noLogBlock ∧
    (createUpdateAfterExistence env input).outcome ≠ .err .noLogEnabled := by
  have hne : ¬ (expandSubscriptionMonitorDiagnosticsSettingsLogs input.logsRaw).length = 0 := by
    intro h0
    rw [List.length_eq_zero] at h0
    simp [h0] at hen
  unfold createUpdateAfterExistence
  dsimp only
  rw [if_neg hne, if_neg (by simp [hen])]
  split
  · simp
  · split
    · simp
    · split
      · simp
      · split
        · simp
        · rcases read_outcome_cases env.readEnv (input.subscriptionID ++ "|" ++ input.name)
            with h | h | h | h | h | h <;> simp [h]

/-- C1: create/update returns an error without invoking the remote
`CreateOrUpdate` whenever the expanded `log` list is empty, and whenever it is
non-empty but no entry is enabled; when some entry is enabled, neither the
`noLogBlock` nor the `noLogEnabled` error is returned. -/
theorem createUpdate_log_validation (env : CreateUpdateEnv) (input : CreateUpdateInput) :
    ((expandSubscriptionMonitorDiagnosticsSettingsLogs input.logsRaw = [] →
        (∃ e, (resourceMonitorSubscriptionDiagnosticSettingCreateUpdate env input).outcome = .err e)
        ∧ (resourceMonitorSubscriptionDiagnosticSettingCreateUpdate env input).calledCreateOrUpdate = false))
  ∧ ((expandSubscriptionMonitorDiagnosticsSettingsLogs input.logsRaw ≠ [] →
       (∀ l ∈ expandSubscriptionMonitorDiagnosticsSettingsLogs input.logsRaw, l.Enabled = false) →
        (∃ e, (resourceMonitorSubscriptionDiagnosticSettingCreateUpdate env input).outcome = .err e)
        ∧ (resourceMonitorSubscriptionDiagnosticSettingCreateUpdate env input).calledCreateOrUpdate = false))
  ∧ ((∃ l ∈ expandSubscriptionMonitorDiagnosticsSettingsLogs input.logsRaw, l.Enabled = true) →
        (resourceMonitorSubscriptionDiagnosticSettingCreateUpdate env input).outcome ≠ .err .noLogBlock
        ∧ (resourceMonitorSubscriptionDiagnosticSettingCreateUpdate env input).outcome ≠ .err .noLogEnabled) := by
  refine ⟨?_, ?_, ?_⟩
  · intro hempty
    rcases createUpdate_cases env input with h | h | h
    · rw [h]; exact ⟨⟨.existenceCheckFailed, rfl⟩, rfl⟩
    · rw [h]; exact ⟨⟨.importAsExists, rfl⟩, rfl⟩
    · rw [h, afterExistence_noLogBlock env input hempty]
      exact ⟨⟨.noLogBlock, rfl⟩, rfl⟩
  · intro hne hall
    rcases createUpdate_cases env input with h | h | h
    · rw [h]; exact ⟨⟨.existenceCheckFailed, rfl⟩, rfl⟩
    · rw [h]; exact ⟨⟨.importAsExists, rfl⟩, rfl⟩
    · have h2 : (expandSubscriptionMonitorDiagnosticsSettingsLogs input.logsRaw).any (·.Enabled) = false := by
        simp only [List.any_eq_false]
        intro l hl
        simp [hall l hl]
      rw [h, afterExistence_noLogEnabled env input hne h2]
      exact ⟨⟨.noLogEnabled, rfl⟩, rfl⟩
  · intro hsome
    have hen : (expandSubscriptionMonitorDiagnosticsSettingsLogs input.logsRaw).any (·.Enabled) = true := by
      obtain ⟨l, hl, he⟩ := hsome
      exact List.any_eq_true.mpr ⟨l, hl, by simp [he]⟩
    rcases createUpdate_cases env input with h | h | h
    · rw [h]; exact ⟨by simp, by simp⟩
    · rw [h]; exact ⟨by simp, by simp⟩
    · rw [h]; exact afterExistence_outcome_ne env input hen

/-- C1 witness: concrete instances of all three parts: an empty log list and an
all-disabled log list both error before any remote call, and a list with an
enabled entry avoids both log-validation errors. -/
theorem createUpdate_log_validation_witness :
    ((∃ e, (resourceMonitorSubscriptionDiagnosticSettingCreateUpdate
        { getExisting := ⟨false, false, none⟩, createOrUpdateErr := false,
          getAfterCreate := ⟨false, false, none⟩,
          readEnv := ⟨⟨false, false, none⟩, fun _ => none, fun _ => none, fun _ => none⟩ }
        { name := "n", subscriptionID := "s", isNewResource := false, logsRaw := [],
          eventHubAuthorizationRuleId := "", eventHubName := "", workspaceId := "",
          storageAccountId := "" }).outcome = .err e))
  ∧ ((∃ e, (resourceMonitorSubscriptionDiagnosticSettingCreateUpdate
        { getExisting := ⟨false, false, none⟩, createOrUpdateErr := false,
          getAfterCreate := ⟨false, false, none⟩,
          readEnv := ⟨⟨false, false, none⟩, fun _ => none, fun _ => none, fun _ => none⟩ }
        { name := "n", subscriptionID := "s", isNewResource := false,
          logsRaw := [⟨"c", "", false⟩],
          eventHubAuthorizationRuleId := "", eventHubName := "", workspaceId := "",
          storageAccountId := "" }).outcome = .err e))
  ∧ ((resourceMonitorSubscriptionDiagnosticSettingCreateUpdate
        { getExisting := ⟨false, false, none⟩, createOrUpdateErr := false,
          getAfterCreate := ⟨false, false, none⟩,
          readEnv := ⟨⟨false, false, none⟩, fun _ => none, fun _ => none, fun _ => none⟩ }
        { name := "n", subscriptionID := "s", isNewResource := false,
          logsRaw := [⟨"c", "", true⟩],
          eventHubAuthorizationRuleId := "", eventHubName := "", workspaceId := "",
          storageAccountId := "" }).outcome ≠ .err .noLogBlock) := by
  refine ⟨?_, ?_, ?_⟩
  · exact ((createUpdate_log_validation _ _).1 (by simp [expandSubscriptionMonitorDiagnosticsSettingsLogs])).1
  · exact ((createUpdate_log_validation _ _).2.1 (by simp [expandSubscriptionMonitorDiagnosticsSettingsLogs])
      (by intro l hl; simp [expandSubscriptionMonitorDiagnosticsSettingsLogs, expandOneLog] at hl; simp [hl])).1
  · exact ((createUpdate_log_validation _ _).2.2
      ⟨expandOneLog ⟨"c", "", true⟩, by simp [expandSubscriptionMonitorDiagnosticsSettingsLogs], by simp [expandOneLog]⟩).1

/-- C2: with valid logs and on the update path, create/update returns the
destination-demanding error exactly when all three of
`eventhub_authorization_rule_id`, `log_analytics_workspace_id` and
`storage_account_id` are empty; when at least one (in particular, more than
one) destination is populated, the configuration is accepted: the remote
`CreateOrUpdate` is invoked and no destination error is returned. -/
theorem createUpdate_destination_validation (env : CreateUpdateEnv) (input : CreateUpdateInput)
    (hnew : input.isNewResource = false)
    (hen : (expandSubscriptionMonitorDiagnosticsSettingsLogs input.logsRaw).any (·.Enabled) = true) :
    ((resourceMonitorSubscriptionDiagnosticSettingCreateUpdate env input).outcome =
          .err .noDestination ↔
        (input.eventHubAuthorizationRuleId = "" ∧ input.workspaceId = ""
          ∧ input.storageAccountId = ""))
  ∧ ((input.eventHubAuthorizationRuleId ≠ "" ∨ input.workspaceId ≠ ""
        ∨ input.storageAccountId ≠ "") →
      (resourceMonitorSubscriptionDiagnosticSettingCreateUpdate env input).calledCreateOrUpdate = true
      ∧ (resourceMonitorSubscriptionDiagnosticSettingCreateUpdate env input).outcome ≠
          .err .noDestination) := by
  have hF : resourceMonitorSubscriptionDiagnosticSettingCreateUpdate env input =
      createUpdateAfterExistence env input := by
    unfold resourceMonitorSubscriptionDiagnosticSettingCreateUpdate
    rw [if_neg (by simp [hnew])]
  have hne : ¬ (expandSubscriptionMonitorDiagnosticsSettingsLogs input.logsRaw).length = 0 := by
    intro h0
    rw [List.length_eq_zero] at h0
    simp [h0] at hen
  rw [hF]
  unfold createUpdateAfterExistence
  dsimp only
  rw [if_neg hne, if_neg (by simp [hen])]
  by_cases hd : (input.eventHubAuthorizationRuleId ≠ "" ∨ input.workspaceId ≠ "")
      ∨ input.storageAccountId ≠ ""
  · rw [if_neg (not_not_intro hd)]
    have hrest :
        (if env.createOrUpdateErr = true then
          ({ ops := [], calledCreateOrUpdate := true, outcome := .err .createFailed } : CreateUpdateResult)
        else
          if env.getAfterCreate.err = true then
            { ops := [], calledCreateOrUpdate := true, outcome := .err .readBackGetFailed }
          else
            match env.getAfterCreate.Model with
            | none => { ops := [], calledCreateOrUpdate := true, outcome := .panicNilDeref }
            | some _ =>
              { ops := StateOp.setId (input.subscriptionID ++ "|" ++ input.name) ::
                  (resourceMonitorSubscriptionDiagnosticSettingRead env.readEnv
                    (input.subscriptionID ++ "|" ++ input.name)).ops,
                calledCreateOrUpdate := true,
                outcome := (resourceMonitorSubscriptionDiagnosticSettingRead env.readEnv
                  (input.subscriptionID ++ "|" ++ input.name)).outcome }).calledCreateOrUpdate = true
        ∧ (if env.createOrUpdateErr = true then
          ({ ops := [], calledCreateOrUpdate := true, outcome := .err .createFailed } : CreateUpdateResult)
        else
          if env.getAfterCreate.err = true then
            { ops := [], calledCreateOrUpdate := true, outcome := .err .readBackGetFailed }
          else
            match env.getAfterCreate.Model with
            | none => { ops := [], calledCreateOrUpdate := true, outcome := .panicNilDeref }
            | some _ =>
              { ops := StateOp.setId (input.subscriptionID ++ "|" ++ input.name) ::
                  (resourceMonitorSubscriptionDiagnosticSettingRead env.readEnv
                    (input.subscriptionID ++ "|" ++ input.name)).ops,
                calledCreateOrUpdate := true,
                outcome := (resourceMonitorSubscriptionDiagnosticSettingRead env.readEnv
                  (input.subscriptionID ++ "|" ++ input.name)).outcome }).outcome ≠
            .err .noDestination := by
      split
      · simp
      · split
        · simp
        · split
          · simp
          · rcases read_outcome_cases env.readEnv (input.subscriptionID ++ "|" ++ input.name)
              with h | h | h | h | h | h <;> simp [h]
    refine ⟨?_, fun _ => hrest⟩
    constructor
    · intro hout
      exact absurd hout hrest.2
    · intro hall
      exact absurd (by tauto : (input.eventHubAuthorizationRuleId ≠ "" ∨ input.workspaceId ≠ "")
          ∨ input.storageAccountId ≠ "") (by tauto)
  · rw [if_pos hd]
    push_neg at hd
    refine ⟨⟨fun _ => ⟨hd.1.1, hd.1.2, hd.2⟩, fun _ => rfl⟩, ?_⟩
    intro hsome
    rcases hsome with h | h | h
    · exact absurd hd.1.1 h
    · exact absurd hd.1.2 h
    · exact absurd hd.2 h

/-- C2 witness: a configuration populating two destinations at once (auth rule
and workspace) with valid logs is accepted: the remote call happens and the
destination error is absent; and one with no destination yields exactly the
destination error. -/
theorem createUpdate_destination_validation_witness :
    ((resourceMonitorSubscriptionDiagnosticSettingCreateUpdate
        { getExisting := ⟨false, false, none⟩, createOrUpdateErr := true,
          getAfterCreate := ⟨false, false, none⟩,
          readEnv := ⟨⟨false, false, none⟩, fun _ => none, fun _ => none, fun _ => none⟩ }
        { name := "n", subscriptionID := "s", isNewResource := false,
          logsRaw := [⟨"c", "", true⟩],
          eventHubAuthorizationRuleId := "ehar", eventHubName := "eh", workspaceId := "ws",
          storageAccountId := "" }).calledCreateOrUpdate = true)
  ∧ ((resourceMonitorSubscriptionDiagnosticSettingCreateUpdate
        { getExisting := ⟨false, false, none⟩, createOrUpdateErr := true,
          getAfterCreate := ⟨false, false, none⟩,
          readEnv := ⟨⟨false, false, none⟩, fun _ => none, fun _ => none, fun _ => none⟩ }
        { name := "n", subscriptionID := "s", isNewResource := false,
          logsRaw := [⟨"c", "", true⟩],
          eventHubAuthorizationRuleId := "", eventHubName := "", workspaceId := "",
          storageAccountId := "" }).outcome = .err .noDestination) := by
  constructor
  · exact ((createUpdate_destination_validation _ _ rfl (by decide)).2 (by left; decide)).1
  · exact (createUpdate_destination_validation _ _ rfl (by decide)).1.mpr ⟨rfl, rfl, rfl⟩

/-- C5: on the successful create/update path the state ID is set to
`subscriptionId ++ "|" ++ name`, and parsing that string with
`ParseMonitorSubscriptionDiagnosticId` recovers exactly the subscription
identifier and the name, whenever neither contains a pipe character. -/
theorem createUpdate_id_roundtrip (env : CreateUpdateEnv) (input : CreateUpdateInput)
    (hsub : '|' ∉ input.subscriptionID.toList) (hname : '|' ∉ input.name.toList)
    (hnew : input.isNewResource = false)
    (hen : (expandSubscriptionMonitorDiagnosticsSettingsLogs input.logsRaw).any (·.Enabled) = true)
    (hdest : input.eventHubAuthorizationRuleId ≠ "" ∨ input.workspaceId ≠ ""
      ∨ input.storageAccountId ≠ "")
    (hco : env.createOrUpdateErr = false)
    (hread : env.getAfterCreate.err = false)
    (m : SettingsModel) (hmodel : env.getAfterCreate.Model = some m) :
    (resourceMonitorSubscriptionDiagnosticSettingCreateUpdate env input).ops =
      StateOp.setId (input.subscriptionID ++ "|" ++ input.name) ::
        (resourceMonitorSubscriptionDiagnosticSettingRead env.readEnv
          (input.subscriptionID ++ "|" ++ input.name)).ops
    ∧ ParseMonitorSubscriptionDiagnosticId (input.subscriptionID ++ "|" ++ input.name) =
        .ok { SubscriptionId := input.subscriptionID, Name := input.name } := by
  refine ⟨?_, parse_append _ _ hsub hname⟩
  have hne : ¬ (expandSubscriptionMonitorDiagnosticsSettingsLogs input.logsRaw).length = 0 := by
    intro h0
    rw [List.length_eq_zero] at h0
    simp [h0] at hen
  unfold resourceMonitorSubscriptionDiagnosticSettingCreateUpdate
  rw [if_neg (by simp [hnew])]
  unfold createUpdateAfterExistence
  dsimp only
  rw [if_neg hne, if_neg (by simp [hen]),
    if_neg (not_not_intro (by tauto : (input.eventHubAuthorizationRuleId ≠ ""
      ∨ input.workspaceId ≠ "") ∨ input.storageAccountId ≠ "")),
    if_neg (by simp [hco]), if_neg (by simp [hread]), hmodel]

/-- C5 witness: the round trip at a concrete subscription identifier and name. -/
theorem createUpdate_id_roundtrip_witness :
    (resourceMonitorSubscriptionDiagnosticSettingCreateUpdate
        { getExisting := ⟨false, false, none⟩, createOrUpdateErr := false,
          getAfterCreate := ⟨false, false, some ⟨some "remote-id", none⟩⟩,
          readEnv := ⟨⟨true, true, none⟩, fun _ => none, fun _ => none, fun _ => none⟩ }
        { name := "setting1", subscriptionID := "sub-123", isNewResource := false,
          logsRaw := [⟨"Administrative", "", true⟩],
          eventHubAuthorizationRuleId := "", eventHubName := "", workspaceId := "ws",
          storageAccountId := "" }).ops =
      StateOp.setId "sub-123|setting1" ::
        (resourceMonitorSubscriptionDiagnosticSettingRead
          ⟨⟨true, true, none⟩, fun _ => none, fun _ => none, fun _ => none⟩
          "sub-123|setting1").ops
    ∧ ParseMonitorSubscriptionDiagnosticId "sub-123|setting1" =
        .ok { SubscriptionId := "sub-123", Name := "setting1" } := by
  have h := createUpdate_id_roundtrip
      { getExisting := ⟨false, false, none⟩, createOrUpdateErr := false,
        getAfterCreate := ⟨false, false, some ⟨some "remote-id", none⟩⟩,
        readEnv := ⟨⟨true, true, none⟩, fun _ => none, fun _ => none, fun _ => none⟩ }
      { name := "setting1", subscriptionID := "sub-123", isNewResource := false,
        logsRaw := [⟨"Administrative", "", true⟩],
        eventHubAuthorizationRuleId := "", eventHubName := "", workspaceId := "ws",
        storageAccountId := "" }
      (by decide) (by decide) rfl (by decide) (by right; left; decide) rfl rfl
      ⟨some "remote-id", none⟩ rfl
  exact h

/-- C3: the line-196 guard `read.Model == nil && read.Model.Id == nil` is a nil
dereference, not a safe check: on a follow-up `Get` whose `Model` is nil (all
other stages succeeding, with valid logs and a destination), create/update
panics instead of returning the `cannotReadId` error. -/
theorem createUpdate_nil_model_panics :
    (resourceMonitorSubscriptionDiagnosticSettingCreateUpdate
        { getExisting := ⟨false, false, none⟩, createOrUpdateErr := false,
          getAfterCreate := ⟨false, false, none⟩,
          readEnv := ⟨⟨false, false, none⟩, fun _ => none, fun _ => none, fun _ => none⟩ }
        { name := "setting1", subscriptionID := "sub-123", isNewResource := false,
          logsRaw := [⟨"Administrative", "", true⟩],
          eventHubAuthorizationRuleId := "", eventHubName := "", workspaceId := "ws",
          storageAccountId := "" }).outcome = .panicNilDeref
    ∧ (resourceMonitorSubscriptionDiagnosticSettingCreateUpdate
        { getExisting := ⟨false, false, none⟩, createOrUpdateErr := false,
          getAfterCreate := ⟨false, false, none⟩,
          readEnv := ⟨⟨false, false, none⟩, fun _ => none, fun _ => none, fun _ => none⟩ }
        { name := "setting1", subscriptionID := "sub-123", isNewResource := false,
          logsRaw := [⟨"Administrative", "", true⟩],
          eventHubAuthorizationRuleId := "", eventHubName := "", workspaceId := "ws",
          storageAccountId := "" }).outcome ≠ .err .cannotReadId := by
  constructor
  · rfl
  · decide

/-! ## Claim theorems: the read flow -/

/-- C10: when the remote `Get` fails as not-found, Read clears the resource ID
(the only state write is `SetId ""`) and returns nil; for any other `Get`
failure it returns an error having written nothing. -/
theorem read_notfound_clears_state (env : ReadEnv) (idStr : String) (id : DiagnosticSettingId)
    (hparse : ParseMonitorSubscriptionDiagnosticId idStr = .ok id)
    (herr : env.get.err = true) :
    (env.get.wasNotFound = true →
       resourceMonitorSubscriptionDiagnosticSettingRead env idStr =
         { ops := [StateOp.setId ""], outcome := .ok })
  ∧ (env.get.wasNotFound = false →
       (resourceMonitorSubscriptionDiagnosticSettingRead env idStr).ops = []
       ∧ (resourceMonitorSubscriptionDiagnosticSettingRead env idStr).outcome =
           .err .retrieveFailed) := by
  unfold resourceMonitorSubscriptionDiagnosticSettingRead
  rw [hparse]
  dsimp only
  constructor
  · intro hn
    rw [if_pos herr, if_pos hn]
  · intro hn
    rw [if_pos herr, if_neg (by simp [hn])]
    exact ⟨rfl, rfl⟩

/-- C10 witness: both branches at a concrete ID and concrete responses. -/
theorem read_notfound_clears_state_witness :
    resourceMonitorSubscriptionDiagnosticSettingRead
        ⟨⟨true, true, none⟩, fun _ => none, fun _ => none, fun _ => none⟩ "a|b" =
      { ops := [StateOp.setId ""], outcome := .ok }
    ∧ (resourceMonitorSubscriptionDiagnosticSettingRead
        ⟨⟨true, false, none⟩, fun _ => none, fun _ => none, fun _ => none⟩ "a|b").ops = [] := by
  constructor
  · exact (read_notfound_clears_state
      ⟨⟨true, true, none⟩, fun _ => none, fun _ => none, fun _ => none⟩ "a|b"
      ⟨"a", "b"⟩ (by rfl) rfl).1 rfl
  · exact ((read_notfound_clears_state
      ⟨⟨true, false, none⟩, fun _ => none, fun _ => none, fun _ => none⟩ "a|b"
      ⟨"a", "b"⟩ (by rfl) rfl).2 rfl).1

/-! ## Claim theorems: the delete polling -/

theorem waitGo_success_consecutive (refresh : Nat → RefreshOutcome) (target : Nat) :
    ∀ (fuel i occ : Nat), occ ≤ i →
      (∀ j < occ, refresh (i - occ + j) = .stateNotFound) →
      waitGo refresh target i occ fuel = .success →
      ∃ s, ∀ j < target, refresh (s + j) = .stateNotFound := by
  intro fuel
  induction fuel with
  | zero =>
    intro i occ _ _ hs
    simp [waitGo] at hs
  | succ f ih =>
    intro i occ hocc hprev hs
    rw [waitGo] at hs
    cases hre : refresh i with
    | stateNotFound =>
      rw [hre] at hs
      dsimp only at hs
      by_cases htar : target ≤ occ + 1
      · refine ⟨i - occ, fun j hj => ?_⟩
        rcases Nat.lt_or_ge j occ with hj2 | hj2
        · exact hprev j hj2
        · have hje : j = occ := by omega
          subst hje
          rw [Nat.sub_add_cancel hocc]
          exact hre
      · rw [if_neg htar] at hs
        refine ih (i + 1) (occ + 1) (by omega) ?_ hs
        intro j hj
        rcases Nat.lt_or_ge j occ with hj2 | hj2
        · have : i + 1 - (occ + 1) + j = i - occ + j := by omega
          rw [this]
          exact hprev j hj2
        · have hje : i + 1 - (occ + 1) + j = i := by omega
          rw [hje]
          exact hre
    | stateExists res =>
      rw [hre] at hs
      dsimp only at hs
      exact ih (i + 1) 0 (by omega) (by intro j hj; omega) hs
    | refreshError =>
      rw [hre] at hs
      simp at hs

/-- C4: the delete-polling refresh function returns `NotFound` with no error
exactly when `Get` fails not-found, returns `Exists` with the response exactly
when `Get` succeeds, and an error for any other `Get` failure; delete configures
the poll with a 15-second minimum interval, target `NotFound`, pending `Exists`
and 5 required consecutive target observations; a successful wait exhibits 5
consecutive `NotFound` polls, the wait times out when the delete timeout
elapses first, and (parsing and the delete call succeeding) delete returns nil
exactly when the wait succeeds. -/
theorem delete_polling_spec (t : Nat) :
    (∀ res : GetResponse,
        (monitorSubscriptionDiagnosticSettingDeletedRefreshFunc res = .stateNotFound ↔
          res.err = true ∧ res.wasNotFound = true)
      ∧ (monitorSubscriptionDiagnosticSettingDeletedRefreshFunc res = .stateExists res ↔
          res.err = false)
      ∧ (monitorSubscriptionDiagnosticSettingDeletedRefreshFunc res = .refreshError ↔
          res.err = true ∧ res.wasNotFound = false))
  ∧ ((deleteStateConf t).MinTimeoutSeconds = 15
      ∧ (deleteStateConf t).ContinuousTargetOccurence = 5
      ∧ (deleteStateConf t).Pending = ["Exists"]
      ∧ (deleteStateConf t).Target = ["NotFound"])
  ∧ (∀ refresh : Nat → RefreshOutcome,
        waitForStateContext (deleteStateConf t) refresh = .success →
        ∃ s, ∀ j < 5, refresh (s + j) = .stateNotFound)
  ∧ (∀ refresh : Nat → RefreshOutcome, t < 15 →
        waitForStateContext (deleteStateConf t) refresh = .timedOut)
  ∧ (∀ (env : DeleteEnv) (idStr : String) (id : DiagnosticSettingId),
        ParseMonitorSubscriptionDiagnosticId idStr = .ok id →
        ¬(env.deleteErr = true ∧ env.deleteWasNotFound = false) →
        (resourceMonitorSubscriptionDiagnosticSettingDelete env idStr = .ok ↔
          waitForStateContext (deleteStateConf env.timeoutSeconds)
            (fun i => monitorSubscriptionDiagnosticSettingDeletedRefreshFunc (env.polls i)) =
            .success)) := by
  refine ⟨?_, ⟨rfl, rfl, rfl, rfl⟩, ?_, ?_, ?_⟩
  · intro res
    unfold monitorSubscriptionDiagnosticSettingDeletedRefreshFunc
    refine ⟨?_, ?_, ?_⟩ <;> constructor
    · intro h
      by_cases he : res.err = true
      · by_cases hn : res.wasNotFound = true
        · exact ⟨he, hn⟩
        · rw [if_pos he, if_neg hn] at h
          exact absurd h (by simp)
      · rw [if_neg he] at h
        exact absurd h (by simp)
    · rintro ⟨he, hn⟩
      rw [if_pos he, if_pos hn]
    · intro h
      by_cases he : res.err = true
      · rw [if_pos he] at h
        split at h <;> simp_all
      · simp [he]
    · intro he
      rw [if_neg (by simp [he])]
    · intro h
      by_cases he : res.err = true
      · by_cases hn : res.wasNotFound = true
        · rw [if_pos he, if_pos hn] at h
          exact absurd h (by simp)
        · exact ⟨he, by simpa using hn⟩
      · rw [if_neg he] at h
        exact absurd h (by simp)
    · rintro ⟨he, hn⟩
      rw [if_pos he, if_neg (by simp [hn])]
  · intro refresh hs
    exact waitGo_success_consecutive refresh 5 (t / 15) 0 0 (by omega) (by intro j hj; omega) hs
  · intro refresh ht
    unfold waitForStateContext deleteStateConf
    dsimp only
    have : t / 15 = 0 := Nat.div_eq_of_lt ht
    rw [this]
    rfl
  · intro env idStr id hparse hdel
    unfold resourceMonitorSubscriptionDiagnosticSettingDelete
    rw [hparse]
    dsimp only
    rw [if_neg (by simpa using hdel)]
    constructor
    · intro h
      by_cases hw : waitForStateContext (deleteStateConf env.timeoutSeconds)
          (fun i => monitorSubscriptionDiagnosticSettingDeletedRefreshFunc (env.polls i)) = .success
      · exact hw
      · exfalso
        revert h
        split <;> simp_all
    · intro hw
      rw [hw]

/-- C4 witness: the refresh characterisation and the delete wait evaluated
concretely: with every poll answering a not-found failure and a 75-second
timeout, five consecutive polls hit `NotFound` and delete returns nil. -/
theorem delete_polling_spec_witness :
    monitorSubscriptionDiagnosticSettingDeletedRefreshFunc ⟨true, true, none⟩ = .stateNotFound
  ∧ resourceMonitorSubscriptionDiagnosticSettingDelete
      { deleteErr := false, deleteWasNotFound := false,
        polls := fun _ => ⟨true, true, none⟩, timeoutSeconds := 75 } "a|b" = .ok := by
  have h := delete_polling_spec 75
  constructor
  · exact (h.1 ⟨true, true, none⟩).1.mpr ⟨rfl, rfl⟩
  · exact (h.2.2.2.2
      { deleteErr := false, deleteWasNotFound := false,
        polls := fun _ => ⟨true, true, none⟩, timeoutSeconds := 75 } "a|b"
      ⟨"a", "b"⟩ (by rfl) (by simp)).mpr (by rfl)

end AzureRM

namespace SecurityInsight

/-! ## Claim theorems: the generated watchlists client -/

theorem validateCommon_false (client : WatchlistsClient) (rg ws : String)
    (hbad : client.SubscriptionID = "" ∨ rg = "" ∨ 90 < rg.length
      ∨ ws = "" ∨ 90 < ws.length) :
    validateCommon client rg ws = false := by
  unfold validateCommon
  rcases hbad with h | h | h | h | h
  · simp [h]
  · simp [h]
  · simp only [Bool.and_eq_false_iff, decide_eq_false_iff_not, Nat.not_le]
    left
    right
    left
    omega
  · simp [h]
  · simp only [Bool.and_eq_false_iff, decide_eq_false_iff_not, Nat.not_le]
    right
    left
    omega

/-- C8: every operation of `WatchlistsClient` (CreateOrUpdate, Delete, Get,
List) returns a validation error with no request sent whenever the client's
`SubscriptionID` is empty or `resourceGroupName` / `workspaceName` is empty or
longer than 90 characters; CreateOrUpdate additionally rejects, with no request
sent, a watchlist whose non-nil properties lack `DisplayName`, `Provider` or
`ItemsSearchKey`. -/
theorem watchlists_validation (client : WatchlistsClient) (env : AutorestEnv)
    (resourceGroupName workspaceName watchlistAlias skipToken : String) (w : Watchlist) :
    ((client.SubscriptionID = "" ∨ resourceGroupName = "" ∨ 90 < resourceGroupName.length
        ∨ workspaceName = "" ∨ 90 < workspaceName.length) →
      client.CreateOrUpdate env resourceGroupName workspaceName watchlistAlias w =
          { requestSent := false, outcome := .validationFailed }
      ∧ client.Delete env resourceGroupName workspaceName watchlistAlias =
          { requestSent := false, outcome := .validationFailed }
      ∧ client.Get env resourceGroupName workspaceName watchlistAlias =
          { requestSent := false, outcome := .validationFailed }
      ∧ client.List env resourceGroupName workspaceName skipToken =
          { requestSent := false, outcome := .validationFailed })
  ∧ (∀ p, w.WatchlistProperties = some p →
      (p.DisplayName = none ∨ p.Provider = none ∨ p.ItemsSearchKey = none) →
      client.CreateOrUpdate env resourceGroupName workspaceName watchlistAlias w =
        { requestSent := false, outcome := .validationFailed }) := by
  constructor
  · intro hbad
    have hc := validateCommon_false client resourceGroupName workspaceName hbad
    refine ⟨?_, ?_, ?_, ?_⟩
    · unfold WatchlistsClient.CreateOrUpdate
      rw [if_pos (by simp [hc])]
    · unfold WatchlistsClient.Delete
      rw [if_pos (by simp [hc])]
    · unfold WatchlistsClient.Get
      rw [if_pos (by simp [hc])]
    · unfold WatchlistsClient.List
      rw [if_pos (by simp [hc])]
  · intro p hp hmiss
    have hb : validateWatchlistBody w = false := by
      unfold validateWatchlistBody
      rw [hp]
      rcases hmiss with h | h | h <;> simp [h]
    unfold WatchlistsClient.CreateOrUpdate
    rw [if_pos (by simp [hb])]

/-- C8 witness: a client with an empty subscription has all four operations
reject without sending, and a present-but-incomplete watchlist body is rejected
by CreateOrUpdate even with valid names. -/
theorem watchlists_validation_witness :
    (WatchlistsClient.CreateOrUpdate ⟨"", "https://management.azure.com"⟩ ⟨true, true, true⟩
        "rg" "ws" "alias1" ⟨none⟩ =
      { requestSent := false, outcome := .validationFailed })
  ∧ (WatchlistsClient.List ⟨"", "https://management.azure.com"⟩ ⟨true, true, true⟩
        "rg" "ws" "" =
      { requestSent := false, outcome := .validationFailed })
  ∧ (WatchlistsClient.CreateOrUpdate ⟨"sub", "https://management.azure.com"⟩ ⟨true, true, true⟩
        "rg" "ws" "alias1" ⟨some ⟨some "dn", none, some "key"⟩⟩ =
      { requestSent := false, outcome := .validationFailed }) := by
  refine ⟨?_, ?_, ?_⟩
  · exact ((watchlists_validation ⟨"", "https://management.azure.com"⟩ ⟨true, true, true⟩
      "rg" "ws" "alias1" "" ⟨none⟩).1 (Or.inl rfl)).1
  · exact ((watchlists_validation ⟨"", "https://management.azure.com"⟩ ⟨true, true, true⟩
      "rg" "ws" "alias1" "" ⟨none⟩).1 (Or.inl rfl)).2.2.2
  · exact (watchlists_validation ⟨"sub", "https://management.azure.com"⟩ ⟨true, true, true⟩
      "rg" "ws" "alias1" "" ⟨some ⟨some "dn", none, some "key"⟩⟩).2
      ⟨some "dn", none, some "key"⟩ rfl (Or.inr (Or.inl rfl))

end SecurityInsight
